import Mathlib

/-!
Verification of the tile orchestration and scatter-gather pipeline of
`server/ComputeNucleiFeatures/ComputeNucleiFeatures.py` (HistomicsTK CLI).

The embedding models the configuration validation, the region/whole-image
selection, the foreground-fraction table and the tile-dispatch loop of
`main`, the per-tile column-prefix transform of
`compute_tile_nuclei_features`, and the result aggregation
(annotation flattening and `pd.concat(..., ignore_index=True)`).
Floating-point foreground fractions are modelled as rationals: the code
only compares them, never does arithmetic on them, so the order structure
is all that matters.
-/

namespace ComputeNucleiFeatures

/-- The fields of the parsed CLI arguments object that the validation at
lines 94-104 of `main` consults. -/
structure Args where
  inputImageFile : String
  reference_mu_lab : List ℚ
  reference_std_lab : List ℚ
  analysis_roi : List ℤ
  min_fgnd_frac : ℚ
deriving DecidableEq, Repr

/-- Lines 94-104 of `main`: the four sequential configuration checks, each
raising a descriptive error.  `isfile` models `os.path.isfile`. -/
def validateArgs (isfile : String → Bool) (args : Args) : Except String Unit :=
  if !isfile args.inputImageFile then .error "Input image file does not exist."
  else if args.reference_mu_lab.length ≠ 3 then .error "Reference Mean LAB should be a 3 element vector."
  else if args.reference_std_lab.length ≠ 3 then .error "Reference Stddev LAB should be a 3 element vector."
  else if args.analysis_roi.length ≠ 4 then .error "Analysis ROI must be a vector of 4 elements."
  else .ok ()

/-- The prefix of `main` up to the creation of the Dask client (line 116):
validation runs first, and the client (the first piece of parallel
machinery) is created only if validation succeeded.  Returns the list of
side-effect events that happened and the error message, if any. -/
def mainUpToClient (isfile : String → Bool) (args : Args) : List String × Option String :=
  match validateArgs isfile args with
  | .error msg => ([], some msg)
  | .ok _ => (["create_dask_client"], none)

/-- Lines 106-109 of `main`: `np.all(np.array(args.analysis_roi) == -1)`. -/
def process_whole_image (roi : List ℤ) : Bool :=
  roi.all (fun x => x == -1)

/-- The `region` keyword argument built at lines 153-161 of `main`
(left, top, width, height in base pixels). -/
structure Region where
  left : ℤ
  top : ℤ
  width : ℤ
  height : ℤ
deriving DecidableEq, Repr

/-- Lines 153-161 of `main`: `it_kwargs` carries a region restriction iff
the run is not a whole-image run; the restriction copies the four entries
of `analysis_roi`. -/
def itKwargsRegion (roi : List ℤ) : Option Region :=
  if process_whole_image roi then none
  else some ⟨roi.getD 0 0, roi.getD 1 0, roi.getD 2 0, roi.getD 3 0⟩

/-- The foreground preparation state after lines 136-176 of `main`:
whether the low-resolution mask was computed, and the value of
`tile_fgnd_frac_list`. -/
structure FgndPrep where
  lowResMaskComputed : Bool
  tile_fgnd_frac_list : List ℚ
deriving DecidableEq, Repr

/-- Lines 136-176 of `main`: `tile_fgnd_frac_list` is initialised to
`[1.0]` (line 146); only when `is_wsi` holds is the low-resolution mask
computed (lines 136-141) and the fraction table recomputed per tile
(lines 173-176).  `wsiTileFracs` stands for the opaque result of
`htk_utils.compute_tile_foreground_fraction`. -/
def foregroundPrep (is_wsi : Bool) (wsiTileFracs : List ℚ) : FgndPrep :=
  if is_wsi then ⟨true, wsiTileFracs⟩ else ⟨false, [(1 : ℚ)]⟩

/-- Lines 178-179 of `main`:
`np.count_nonzero(tile_fgnd_frac_list >= args.min_fgnd_frac)`. -/
def num_fgnd_tiles (fracList : List ℚ) (minf : ℚ) : ℕ :=
  fracList.countP (fun f => minf ≤ f)

/-- Line 203 of `main`: the guard
`is_wsi and tile_fgnd_frac_list[tile_position] <= args.min_fgnd_frac`.
Python `and` short-circuits, so the list is indexed only when `is_wsi`
holds; indexing out of range raises. -/
def tileSkipped (is_wsi : Bool) (fracList : List ℚ) (minf : ℚ) (p : ℕ) : Except String Bool :=
  if is_wsi then
    match fracList[p]? with
    | some f => .ok (decide (f ≤ minf))
    | none => .error "IndexError: list index out of range"
  else .ok false

/-- Lines 199-213 of `main`: the tile loop, iterating over tile positions
in the order produced by `ts.tileIterator`, skipping a tile when the guard
of line 203 fires, and otherwise appending its (delayed) task.  The result
is the list of dispatched tile positions in submission order. -/
def dispatchLoop (is_wsi : Bool) (fracList : List ℚ) (minf : ℚ) : List ℕ → Except String (List ℕ)
  | [] => .ok []
  | p :: ps =>
    match tileSkipped is_wsi fracList minf p with
    | .error e => .error e
    | .ok skip =>
      match dispatchLoop is_wsi fracList minf ps with
      | .error e => .error e
      | .ok rest => .ok (if skip then rest else p :: rest)

/-- The positions dispatched by the loop of lines 199-213, given that the
tile iterator yields positions `0, 1, ..., numTiles - 1` in order. -/
def dispatchedPositions (is_wsi : Bool) (fracList : List ℚ) (minf : ℚ) (numTiles : ℕ) : Except String (List ℕ) :=
  dispatchLoop is_wsi fracList minf (List.range numTiles)

/-- A pandas DataFrame as the aggregation code observes it: a row index,
column names, and rows of numeric feature values. -/
structure DataFrame where
  index : List ℕ
  columns : List String
  rows : List (List ℚ)
deriving DecidableEq, Repr

/-- Line 221-222 of `main`: `pd.concat(dfs, ignore_index=True)`.  Pandas
raises `ValueError` on an empty list of objects; otherwise it concatenates
the rows (all per-tile tables share one schema) and resets the row index
to `0..n-1`. -/
def pdConcatIgnoreIndex (dfs : List DataFrame) : Except String DataFrame :=
  match dfs with
  | [] => .error "ValueError: No objects to concatenate"
  | d :: _ =>
    let allRows := (dfs.map DataFrame.rows).flatten
    .ok ⟨List.range allRows.length, d.columns, allRows⟩

/-- Line 77 of `compute_tile_nuclei_features`:
`fdata.columns = ['Feature.' + col for col in fdata.columns]`. -/
def prefixFeatureColumns (df : DataFrame) : DataFrame :=
  ⟨df.index, df.columns.map (fun c => "Feature." ++ c), df.rows⟩

/-- The payload of one nucleus annotation is opaque to the orchestration
code; only identity and count matter here. -/
abbrev Annot := ℕ

/-- The pair returned by `compute_tile_nuclei_features` (line 79):
`(nuclei_annot_list, fdata)`. -/
abbrev TileResult := List Annot × DataFrame

/-- Lines 217-219 of `main`: the flattening comprehension
`[annot for annot_list, fdata in tile_result_list for annot in annot_list]`. -/
def nuclei_annot_list (tileResults : List TileResult) : List Annot :=
  (tileResults.map Prod.fst).flatten

/-- Lines 221-222 of `main`: concatenation of the per-tile feature tables
with a reset index. -/
def nuclei_fdata (tileResults : List TileResult) : Except String DataFrame :=
  pdConcatIgnoreIndex (tileResults.map Prod.snd)

/-- A parallel execution of the dispatched batch: the scheduler completes
the tasks in the order given by `order` (a permutation of the task
indices); each completion event records the task index and its result.
Task `i` computes the analysis function on the `i`-th dispatched
position. -/
def executeWithCompletionOrder (f : ℕ → TileResult) (positions : List ℕ) (order : List ℕ) : List (ℕ × TileResult) :=
  order.map (fun i => (i, f (positions.getD i 0)))

/-- Dask's `compute` on a list of delayed tasks: the gathered output is
keyed by task (submission) index, not by completion order. -/
def gatherInOrder (n : ℕ) (events : List (ℕ × TileResult)) : List (Option TileResult) :=
  (List.range n).map (fun i => Option.map Prod.snd (events.find? (fun e => e.1 == i)))

/-- Lines 207-222 of `main` as one pipeline: execute the batch under a
given completion order, gather the results in submission order, and
aggregate annotations and feature tables. -/
def runPipeline (f : ℕ → TileResult) (positions : List ℕ) (order : List ℕ) : List Annot × Except String DataFrame :=
  let results := (gatherInOrder positions.length (executeWithCompletionOrder f positions order)).reduceOption
  (nuclei_annot_list results, nuclei_fdata results)

/-! Helper lemmas about the dispatch loop. -/

lemma tileSkipped_not_wsi (fracList : List ℚ) (minf : ℚ) (p : ℕ) :
    tileSkipped false fracList minf p = .ok false := rfl

lemma dispatchLoop_not_wsi (fracList : List ℚ) (minf : ℚ) (ps : List ℕ) :
    dispatchLoop false fracList minf ps = .ok ps := by
  induction ps with
  | nil => rfl
  | cons p ps ih => simp [dispatchLoop, tileSkipped, ih]

lemma tileSkipped_wsi_lt (fracList : List ℚ) (minf : ℚ) (p : ℕ) (hp : p < fracList.length) :
    tileSkipped true fracList minf p = .ok (decide (fracList.getD p 0 ≤ minf)) := by
  simp [tileSkipped, List.getElem?_eq_getElem hp, List.getD_eq_getElem?_getD]

lemma dispatchLoop_wsi (fracList : List ℚ) (minf : ℚ) (ps : List ℕ)
    (h : ∀ p ∈ ps, p < fracList.length) :
    dispatchLoop true fracList minf ps =
      .ok (ps.filter (fun p => !decide (fracList.getD p 0 ≤ minf))) := by
  induction ps with
  | nil => rfl
  | cons p ps ih =>
    have hp : p < fracList.length := h p (List.mem_cons_self p ps)
    have ih2 := ih (fun q hq => h q (List.mem_cons_of_mem p hq))
    simp only [dispatchLoop, tileSkipped_wsi_lt fracList minf p hp, ih2, List.filter_cons]
    cases hd : decide (fracList.getD p 0 ≤ minf) <;> simp [hd]

lemma dispatchLoop_sublist (is_wsi : Bool) (fracList : List ℚ) (minf : ℚ) (ps : List ℕ)
    (l : List ℕ) (h : dispatchLoop is_wsi fracList minf ps = .ok l) : l.Sublist ps := by
  induction ps generalizing l with
  | nil =>
    simp only [dispatchLoop, Except.ok.injEq] at h
    rw [← h]
  | cons p ps ih =>
    simp only [dispatchLoop] at h
    cases hts : tileSkipped is_wsi fracList minf p with
    | error e => rw [hts] at h; cases h
    | ok skip =>
      rw [hts] at h
      cases hdl : dispatchLoop is_wsi fracList minf ps with
      | error e => rw [hdl] at h; cases h
      | ok rest =>
        rw [hdl] at h
        have hr := ih rest hdl
        cases skip with
        | false =>
          simp only [Bool.false_eq_true, if_false, Except.ok.injEq] at h
          rw [← h]
          exact hr.cons₂ p
        | true =>
          simp only [if_true, Except.ok.injEq] at h
          rw [← h]
          exact hr.cons p

lemma map_getD_range {α : Type} (d : α) (xs : List α) :
    (List.range xs.length).map (fun p => xs.getD p d) = xs := by
  induction xs with
  | nil => rfl
  | cons x xs ih =>
    rw [List.length_cons, List.range_succ_eq_map, List.map_cons, List.map_map]
    simp only [Function.comp_def, List.getD_cons_zero, List.getD_cons_succ]
    rw [ih]

lemma filter_range_getD_length {α : Type} (d : α) (xs : List α) (pred : α → Bool) :
    ((List.range xs.length).filter (fun p => pred (xs.getD p d))).length = xs.countP pred := by
  rw [← List.countP_eq_length_filter]
  conv_rhs => rw [← map_getD_range d xs]
  rw [List.countP_map]
  rfl

lemma countP_lt_of_witness {α : Type} {l : List α} {p q : α → Bool}
    (hmono : ∀ a ∈ l, p a = true → q a = true) {a : α} (ha : a ∈ l)
    (hpa : p a = false) (hqa : q a = true) :
    l.countP p < l.countP q := by
  induction l with
  | nil => cases ha
  | cons x xs ih =>
    rw [List.countP_cons, List.countP_cons]
    rcases List.mem_cons.mp ha with rfl | hxs
    · rw [hpa, hqa]
      have hle : xs.countP p ≤ xs.countP q :=
        List.countP_mono_left (fun b hb => hmono b (List.mem_cons_of_mem _ hb))
      simpa using Nat.lt_succ_of_le hle
    · have hstep := ih (fun b hb => hmono b (List.mem_cons_of_mem _ hb)) hxs
      have hx := hmono x (List.mem_cons_self _ _)
      have hif : (if p x = true then 1 else 0) ≤ (if q x = true then 1 else 0) := by
        cases hpx : p x with
        | false => simp
        | true => simp [hx hpx]
      omega

/-! Claim theorems about foreground filtering and dispatch. -/

/-- Claim C1 counterexample: a tile whose foreground fraction is exactly
equal to `min_fgnd_frac` satisfies the inclusive bound `frac >= minf`, yet
the guard at line 203 (`frac <= minf` skips) leaves it undispatched: with
one tile of fraction 1/2 and threshold 1/2, no tile position is
dispatched. -/
theorem C1_counterexample :
    mkRat 1 2 ≥ mkRat 1 2 ∧
    dispatchedPositions true [mkRat 1 2] (mkRat 1 2) 1 = .ok [] := by
  exact ⟨le_refl _, rfl⟩

/-- Claim C1 (amended): in a whole-slide run a planned tile is dispatched
for analysis iff its foreground fraction is STRICTLY greater than
`min_fgnd_frac`; tiles whose fraction exactly equals the threshold are
skipped. -/
theorem C1_dispatch_strict_threshold (fracList : List ℚ) (minf : ℚ) (numTiles p : ℕ)
    (h : numTiles ≤ fracList.length) :
    ∃ l, dispatchedPositions true fracList minf numTiles = .ok l ∧
      (p ∈ l ↔ p < numTiles ∧ minf < fracList.getD p 0) := by
  have hall : ∀ q ∈ List.range numTiles, q < fracList.length :=
    fun q hq => lt_of_lt_of_le (List.mem_range.mp hq) h
  refine ⟨_, dispatchLoop_wsi fracList minf _ hall, ?_⟩
  simp [List.mem_filter, List.mem_range, not_le]

/-- Witness for C1 (amended) at one tile of fraction 3/5 against
threshold 1/2. -/
theorem C1_dispatch_strict_threshold_witness :
    1 ≤ ([mkRat 3 5] : List ℚ).length ∧
    ∃ l, dispatchedPositions true [mkRat 3 5] (mkRat 1 2) 1 = .ok l ∧
      (0 ∈ l ↔ 0 < 1 ∧ mkRat 1 2 < ([mkRat 3 5] : List ℚ).getD 0 0) :=
  ⟨by decide, C1_dispatch_strict_threshold [mkRat 3 5] (mkRat 1 2) 1 0 (by decide)⟩

/-- Claim C5: for a non-pyramidal input (`is_wsi` false), the
foreground-fraction table is exactly `[1.0]`, the low-resolution mask is
not computed, and every planned tile is dispatched. -/
theorem C5_non_pyramidal_all_dispatched (wsiTileFracs : List ℚ) (minf : ℚ) (numTiles : ℕ) :
    foregroundPrep false wsiTileFracs = ⟨false, [(1 : ℚ)]⟩ ∧
    dispatchedPositions false (foregroundPrep false wsiTileFracs).tile_fgnd_frac_list minf
        numTiles = .ok (List.range numTiles) :=
  ⟨rfl, dispatchLoop_not_wsi _ minf (List.range numTiles)⟩

/-- Claim C9: the reported foreground-tile count (line 178, `>=`) counts
threshold-equal tiles that the dispatch guard (line 203, skip on `<=`)
never analyzes, so whenever some tile fraction equals `min_fgnd_frac`
exactly, the reported count strictly exceeds the number of dispatched
tiles. -/
theorem C9_reported_count_exceeds_dispatched (fracList : List ℚ) (minf : ℚ)
    (h : minf ∈ fracList) :
    ∃ l, dispatchedPositions true fracList minf fracList.length = .ok l ∧
      l.length < num_fgnd_tiles fracList minf := by
  have hall : ∀ q ∈ List.range fracList.length, q < fracList.length :=
    fun q hq => List.mem_range.mp hq
  refine ⟨_, dispatchLoop_wsi fracList minf _ hall, ?_⟩
  rw [filter_range_getD_length 0 fracList (fun f => !decide (f ≤ minf))]
  refine countP_lt_of_witness ?_ h ?_ ?_
  · intro a _ hpa
    simp only [Bool.not_eq_true', decide_eq_false_iff_not, not_le] at hpa
    simpa using le_of_lt hpa
  · simp
  · simp

/-- Witness for C9: fractions `[1/2, 3/4]` with threshold `1/2`. -/
theorem C9_reported_count_exceeds_dispatched_witness :
    mkRat 1 2 ∈ ([mkRat 1 2, mkRat 3 4] : List ℚ) ∧
    ∃ l, dispatchedPositions true [mkRat 1 2, mkRat 3 4] (mkRat 1 2) 2 = .ok l ∧
      l.length < num_fgnd_tiles [mkRat 1 2, mkRat 3 4] (mkRat 1 2) :=
  ⟨by decide, C9_reported_count_exceeds_dispatched [mkRat 1 2, mkRat 3 4] (mkRat 1 2) (by decide)⟩

/-- Claim C10: with `is_wsi` false the guard of line 203 short-circuits
before indexing the one-element fraction table, so no tile position ever
indexes `[1.0]`: the guard evaluates to "not skipped" without a lookup and
the loop dispatches every tile without an IndexError, however many tiles
the image yields. -/
theorem C10_sentinel_table_never_indexed (minf : ℚ) (p numTiles : ℕ) :
    tileSkipped false [(1 : ℚ)] minf p = .ok false ∧
    dispatchedPositions false [(1 : ℚ)] minf numTiles = .ok (List.range numTiles) :=
  ⟨rfl, dispatchLoop_not_wsi _ minf (List.range numTiles)⟩

/-! Helper lemmas about aggregation, validation and the gather step. -/

lemma rows_flatten_length (rs : List TileResult)
    (hcorr : ∀ r ∈ rs, r.1.length = r.2.rows.length) :
    ((rs.map Prod.snd).map DataFrame.rows).flatten.length = (rs.map Prod.fst).flatten.length := by
  induction rs with
  | nil => rfl
  | cons r rs ih =>
    simp only [List.map_cons, List.flatten_cons, List.length_append]
    rw [ih (fun a ha => hcorr a (List.mem_cons_of_mem _ ha)), hcorr r (List.mem_cons_self _ _)]

lemma annot_total (rs : List TileResult) :
    (nuclei_annot_list rs).length = (rs.map (fun t => t.1.length)).sum := by
  simp [nuclei_annot_list, List.length_flatten, List.map_map, Function.comp_def]

lemma validateArgs_ok_iff (isfile : String → Bool) (args : Args) :
    validateArgs isfile args = .ok () ↔
      (isfile args.inputImageFile = true ∧ args.reference_mu_lab.length = 3 ∧
        args.reference_std_lab.length = 3 ∧ args.analysis_roi.length = 4) := by
  unfold validateArgs
  cases hf : isfile args.inputImageFile <;>
    by_cases h1 : args.reference_mu_lab.length = 3 <;>
      by_cases h2 : args.reference_std_lab.length = 3 <;>
        by_cases h3 : args.analysis_roi.length = 4 <;>
          simp [hf, h1, h2, h3]

lemma validateArgs_cases (isfile : String → Bool) (args : Args) :
    validateArgs isfile args = .ok () ∨
      ∃ msg, validateArgs isfile args = .error msg ∧ 0 < msg.length := by
  unfold validateArgs
  cases hf : isfile args.inputImageFile <;>
    by_cases h1 : args.reference_mu_lab.length = 3 <;>
      by_cases h2 : args.reference_std_lab.length = 3 <;>
        by_cases h3 : args.analysis_roi.length = 4 <;>
          simp [hf, h1, h2, h3] <;> decide

lemma find?_tagged {α : Type} (g : ℕ → α) (order : List ℕ) (i : ℕ) (h : i ∈ order) :
    (order.map (fun j => (j, g j))).find? (fun e => e.1 == i) = some (i, g i) := by
  induction order with
  | nil => cases h
  | cons j order ih =>
    by_cases hj : j = i
    · subst hj
      simp [List.find?_cons]
    · have hi : i ∈ order := by
        rcases List.mem_cons.mp h with h1 | h2
        · exact absurd h1.symm hj
        · exact h2
      have hb : (j == i) = false := by simpa using hj
      simp [List.find?_cons, hb, ih hi]

lemma gather_execute (f : ℕ → TileResult) (positions : List ℕ) (order : List ℕ)
    (hperm : order.Perm (List.range positions.length)) :
    gatherInOrder positions.length (executeWithCompletionOrder f positions order) =
      positions.map (fun p => some (f p)) := by
  unfold gatherInOrder executeWithCompletionOrder
  conv_rhs => rw [← map_getD_range 0 positions, List.map_map]
  apply List.map_congr_left
  intro i hi
  have hio : i ∈ order := hperm.mem_iff.mpr hi
  rw [find?_tagged (fun j => f (positions.getD j 0)) order i hio]
  rfl

lemma reduceOption_map_some {α β : Type} (g : α → β) (l : List α) :
    (l.map (fun x => some (g x))).reduceOption = l.map g := by
  induction l with
  | nil => rfl
  | cons x xs ih => simp [List.reduceOption_cons_of_some, ih]

lemma runPipeline_eq (f : ℕ → TileResult) (positions : List ℕ) (order : List ℕ)
    (hperm : order.Perm (List.range positions.length)) :
    runPipeline f positions order =
      (nuclei_annot_list (positions.map f), nuclei_fdata (positions.map f)) := by
  unfold runPipeline
  rw [gather_execute f positions order hperm, reduceOption_map_some f positions]

/-! Claim theorems about aggregation, validation, region selection and
determinism. -/

/-- Claim C2: when every tile result satisfies the per-tile row
correspondence (annotation count = feature-row count) and at least one
tile was analyzed, the aggregated slide result has total annotation count
equal to the sum of per-tile annotation counts, feature-table row count
equal to the total annotation count, and a freshly reset row index
`0..n-1`. -/
theorem C2_aggregation_counts (rs : List TileResult)
    (hcorr : ∀ r ∈ rs, r.1.length = r.2.rows.length) (hne : rs ≠ []) :
    ∃ df, nuclei_fdata rs = .ok df ∧
      (nuclei_annot_list rs).length = (rs.map (fun t => t.1.length)).sum ∧
      df.rows.length = (nuclei_annot_list rs).length ∧
      df.index = List.range (nuclei_annot_list rs).length := by
  cases rs with
  | nil => exact absurd rfl hne
  | cons r rs =>
    have hrows := rows_flatten_length (r :: rs) hcorr
    exact ⟨_, rfl, annot_total (r :: rs), hrows, congrArg List.range hrows⟩

/-- Witness for C2: the scenario of two tiles returning (3 annotations,
3 rows) and (0 annotations, 0 rows). -/
theorem C2_aggregation_counts_witness :
    ∃ df,
      nuclei_fdata
          [([7, 8, 9], ⟨[0, 1, 2], ["Feature.Size"], [[1], [2], [3]]⟩),
           ([], ⟨[], ["Feature.Size"], []⟩)] = .ok df ∧
      (nuclei_annot_list
          [([7, 8, 9], ⟨[0, 1, 2], ["Feature.Size"], [[1], [2], [3]]⟩),
           ([], ⟨[], ["Feature.Size"], []⟩)]).length =
        ([([7, 8, 9], (⟨[0, 1, 2], ["Feature.Size"], [[1], [2], [3]]⟩ : DataFrame)),
          ([], ⟨[], ["Feature.Size"], []⟩)].map (fun t => t.1.length)).sum ∧
      df.rows.length =
        (nuclei_annot_list
          [([7, 8, 9], ⟨[0, 1, 2], ["Feature.Size"], [[1], [2], [3]]⟩),
           ([], ⟨[], ["Feature.Size"], []⟩)]).length ∧
      df.index = List.range
        (nuclei_annot_list
          [([7, 8, 9], ⟨[0, 1, 2], ["Feature.Size"], [[1], [2], [3]]⟩),
           ([], ⟨[], ["Feature.Size"], []⟩)]).length :=
  C2_aggregation_counts _ (by decide) (by decide)

/-- Claim C3 (code bug): with an empty eligible-tile set the aggregation
is `pd.concat` of zero tables, which raises instead of yielding an empty
feature table as the spec requires. -/
theorem C3_empty_aggregation_raises :
    nuclei_fdata [] = .error "ValueError: No objects to concatenate" := rfl

/-- Claim C8: every column of the aggregated feature table carries the
namespace token exactly once: the aggregated column list is the per-tile
raw column list with the prefix transform applied once, so each column
name decomposes as the token followed by the raw name. -/
theorem C8_feature_column_namespacing (raw : DataFrame) (raws : List DataFrame) :
    ∃ df, pdConcatIgnoreIndex ((raw :: raws).map prefixFeatureColumns) = .ok df ∧
      df.columns = raw.columns.map (fun c => "Feature." ++ c) ∧
      ∀ c ∈ df.columns, ∃ base, c = "Feature." ++ base := by
  refine ⟨_, rfl, rfl, ?_⟩
  intro c hc
  rcases List.mem_map.mp hc with ⟨base, _, hbase⟩
  exact ⟨base, hbase.symm⟩

/-- Claim C6: the sentinel region `[-1,-1,-1,-1]` selects whole-image
analysis (no region restriction in the tile-iterator arguments); any
other 4-element region restricts tiling to exactly that sub-rectangle. -/
theorem C6_region_sentinel (l t w h : ℤ)
    (hor : ¬(l = -1 ∧ t = -1 ∧ w = -1 ∧ h = -1)) :
    itKwargsRegion [-1, -1, -1, -1] = none ∧
    itKwargsRegion [l, t, w, h] = some ⟨l, t, w, h⟩ := by
  have hpw : process_whole_image [l, t, w, h] = false := by
    simp only [process_whole_image, List.all_cons, List.all_nil, Bool.and_true]
    simpa using hor
  exact ⟨rfl, by simp [itKwargsRegion, hpw]⟩

/-- Witness for C6 at the concrete region `[100,100,500,500]`. -/
theorem C6_region_sentinel_witness :
    itKwargsRegion [-1, -1, -1, -1] = none ∧
    itKwargsRegion [100, 100, 500, 500] = some ⟨100, 100, 500, 500⟩ :=
  C6_region_sentinel 100 100 500 500 (by decide)

/-- Claim C7: a missing input file, a reference LAB vector that is not
3 elements, or a region vector that is not 4 elements makes the run fail
with a descriptive (nonempty) error before the Dask client — the first
piece of parallel machinery — is created; for well-formed configurations
all four validations pass and the client is created. -/
theorem C7_validation_before_parallel_work (isfile : String → Bool) (args : Args) :
    ((isfile args.inputImageFile = false ∨ args.reference_mu_lab.length ≠ 3 ∨
        args.reference_std_lab.length ≠ 3 ∨ args.analysis_roi.length ≠ 4) →
      ∃ msg, mainUpToClient isfile args = ([], some msg) ∧ 0 < msg.length) ∧
    (isfile args.inputImageFile = true → args.reference_mu_lab.length = 3 →
      args.reference_std_lab.length = 3 → args.analysis_roi.length = 4 →
      mainUpToClient isfile args = (["create_dask_client"], none)) := by
  constructor
  · intro hbad
    have hnot : ¬(validateArgs isfile args = .ok ()) := by
      rw [validateArgs_ok_iff]
      rintro ⟨ha, hb, hc, hd⟩
      rcases hbad with hf | hx | hx | hx
      · rw [ha] at hf; cases hf
      · exact hx hb
      · exact hx hc
      · exact hx hd
    rcases validateArgs_cases isfile args with hok | ⟨msg, herr, hlen⟩
    · exact absurd hok hnot
    · exact ⟨msg, by simp [mainUpToClient, herr], hlen⟩
  · intro h1 h2 h3 h4
    have hok : validateArgs isfile args = .ok () :=
      (validateArgs_ok_iff isfile args).mpr ⟨h1, h2, h3, h4⟩
    simp [mainUpToClient, hok]

/-- A concrete well-formed configuration for the C7 witness. -/
def argsGood : Args :=
  ⟨"slide.svs", [0, 0, 0], [1, 1, 1], [-1, -1, -1, -1], mkRat 1 2⟩

/-- Witness for C7: with the file missing the run stops with a descriptive
error and no client; with the file present and well-formed vectors the
client is created. -/
theorem C7_validation_before_parallel_work_witness :
    (∃ msg, mainUpToClient (fun _ => false) argsGood = ([], some msg) ∧ 0 < msg.length) ∧
    mainUpToClient (fun _ => true) argsGood = (["create_dask_client"], none) :=
  ⟨(C7_validation_before_parallel_work (fun _ => false) argsGood).1 (Or.inl rfl),
   (C7_validation_before_parallel_work (fun _ => true) argsGood).2 rfl rfl rfl rfl⟩

/-- Claim C4: the dispatched positions are in ascending TilePosition
order, and the aggregated output (flattened annotation list and
concatenated feature table) is the same for any two completion orders of
the parallel batch — it always equals the aggregation of the per-tile
results taken in ascending TilePosition order. -/
theorem C4_deterministic_ordered_aggregation (fracList : List ℚ) (minf : ℚ) (numTiles : ℕ)
    (f : ℕ → TileResult) (l σ₁ σ₂ : List ℕ)
    (hok : dispatchedPositions true fracList minf numTiles = .ok l)
    (h₁ : σ₁.Perm (List.range l.length)) (h₂ : σ₂.Perm (List.range l.length)) :
    l.Pairwise (· < ·) ∧
    runPipeline f l σ₁ = runPipeline f l σ₂ ∧
    runPipeline f l σ₁ = (nuclei_annot_list (l.map f), nuclei_fdata (l.map f)) := by
  refine ⟨?_, ?_, runPipeline_eq f l σ₁ h₁⟩
  · exact List.Pairwise.sublist (dispatchLoop_sublist true fracList minf _ l hok)
      (List.pairwise_lt_range numTiles)
  · rw [runPipeline_eq f l σ₁ h₁, runPipeline_eq f l σ₂ h₂]

/-- A concrete per-tile analysis function for the C4 witness. -/
def fWitness : ℕ → TileResult :=
  fun p => ([p], ⟨[0], ["Feature.Size"], [[(p : ℚ)]]⟩)

/-- Witness for C4: fractions `[3/5, 1/5, 9/10]` at threshold `1/2`
dispatch positions `[0, 2]`; two opposite completion orders produce the
same aggregated output. -/
theorem C4_deterministic_ordered_aggregation_witness :
    ([0, 2] : List ℕ).Pairwise (· < ·) ∧
    runPipeline fWitness [0, 2] [1, 0] = runPipeline fWitness [0, 2] [0, 1] ∧
    runPipeline fWitness [0, 2] [1, 0] =
      (nuclei_annot_list ([0, 2].map fWitness), nuclei_fdata ([0, 2].map fWitness)) :=
  C4_deterministic_ordered_aggregation [mkRat 3 5, mkRat 1 5, mkRat 9 10] (mkRat 1 2) 3
    fWitness [0, 2] [1, 0] [0, 1] rfl (by decide) (by decide)

end ComputeNucleiFeatures
